import Mathlib

/-!
Verification of the geometric-model estimators and the RANSAC consensus
engine of `skimage/measure/fit.py`.

Shallow-embedding conventions:
* `float` arithmetic of the source is embedded as exact arithmetic over `ℝ`
  (for the closed-form estimators, which use `sqrt`/`log`/`arctan`) and over
  `ℚ` (for the RANSAC engine's residual bookkeeping, which is pure field
  arithmetic on whatever the model's `residuals` callback returns).
* `FailedEstimation` (defined in `skimage/_shared/utils.py`, outside the
  sources at hand) is a falsy sentinel; estimation entry points are embedded
  as `Except String (Option Model)`, where `.error` is a raised exception
  (`ValueError` from shape checks), `.ok none` is a `FailedEstimation`
  result, and `.ok (some m)` is a successfully estimated model.
* External numeric kernels from numpy/scipy (`lstsq`, `svd`, `eig`) are
  passed in as function parameters ("oracles"); theorems quantify over the
  oracle and therefore hold for every behaviour of those kernels.
* The pseudo-random generator used by `ransac` is embedded as an explicit
  sequence of draws, one list of row indices per `rng.choice` call.
-/

namespace SkimageFit

/-! ## Numeric constants and `_dynamic_max_trials` -/

/-- Embedding of `_EPSILON = np.spacing(1)`: the distance from 1.0 to the next float64,
that is `2 ** (-52)`. -/
noncomputable def EPSILON : ℝ := 1 / 2 ^ 52

/-- Embedding of `np.finfo(float64).tiny`: the smallest positive normal float64,
`2 ** (-1022)`.  (The source promotes the input dtype to at least `float32`;
we embed the default `float64` case.) -/
noncomputable def TINY : ℝ := 1 / 2 ^ 1022

/-- Embedding of `np.clip(x, a_min, a_max)`: apply the lower bound, then the upper bound. -/
noncomputable def npClip (x lo hi : ℝ) : ℝ := min (max x lo) hi

/-- Embedding of `_dynamic_max_trials(n_inliers, n_samples, min_samples,
probability)`.  `⊤` stands for `np.inf`; otherwise the result is
`np.ceil(np.log(nom) / np.log(denom))`, a mathematically integral float,
embedded through `Int.ceil`. -/
noncomputable def dynamicMaxTrials (nInliers nSamples minSamples : ℕ)
    (probability : ℝ) : WithTop ℝ :=
  if probability = 0 then 0
  else if nInliers = 0 then ⊤
  else
    let inlierRatio : ℝ := (nInliers : ℝ) / (nSamples : ℝ)
    let nom := npClip (1 - probability) EPSILON (1 - EPSILON)
    let denom := npClip (1 - inlierRatio ^ minSamples) EPSILON (1 - EPSILON)
    (((⌈Real.log nom / Real.log denom⌉ : ℤ) : ℝ) : WithTop ℝ)

/-! ## Vector helpers shared by the estimators

numpy row/column reductions are embedded as list folds:
`data.mean(axis=0)` is the componentwise sum divided by the row count, and
`data.std()` (of the flattened array) is
`sqrt(mean((flat - flat.mean())**2))`. -/

/-- Componentwise sum of two rows (`numpy` vector addition). -/
def vadd (u v : List ℝ) : List ℝ := List.zipWith (· + ·) u v

/-- Componentwise difference of two rows (`numpy` vector subtraction). -/
def vsub (u v : List ℝ) : List ℝ := List.zipWith (· - ·) u v

/-- Sum of a list of rows of dimension `dim`. -/
def vsum (dim : ℕ) (rows : List (List ℝ)) : List ℝ :=
  rows.foldr vadd (List.replicate dim 0)

/-- Embedding of `data.mean(axis=0)` for an `(N, dim)` array given as a list of rows. -/
noncomputable def vmean (rows : List (List ℝ)) : List ℝ :=
  (vsum (rows.headD []).length rows).map (· / (rows.length : ℝ))

/-- Embedding of `np.linalg.norm(v)`, the Euclidean norm of a row. -/
noncomputable def vnorm (v : List ℝ) : ℝ :=
  Real.sqrt ((v.map (· ^ 2)).sum)

/-- Embedding of `data.mean(axis=0)` for an `(N, 2)` array given as a list of pairs. -/
noncomputable def mean2 (data : List (ℝ × ℝ)) : ℝ × ℝ :=
  (((data.map Prod.fst).sum) / (data.length : ℝ),
   ((data.map Prod.snd).sum) / (data.length : ℝ))

/-- Embedding of `data - origin` for an `(N, 2)` array. -/
def center2 (data : List (ℝ × ℝ)) (o : ℝ × ℝ) : List (ℝ × ℝ) :=
  data.map (fun q => (q.1 - o.1, q.2 - o.2))

/-- Embedding of `data.std()` of an `(N, 2)` array: standard deviation of the flattened
array of `2N` values (mean subtracted, as `np.std` does). -/
noncomputable def stdAll (data : List (ℝ × ℝ)) : ℝ :=
  let flat := data.foldr (fun q acc => q.1 :: q.2 :: acc) []
  let mu := flat.sum / (flat.length : ℝ)
  Real.sqrt (((flat.map (fun v => (v - mu) ^ 2)).sum) / (flat.length : ℝ))

/-! ## `LineModelND` -/

/-- A fitted N-dimensional line: `origin` point and `direction` vector. -/
structure LineModelND where
  origin : List ℝ
  direction : List ℝ

/-- Embedding of `LineModelND._estimate` as called from `from_estimate`
(`warn_only=False`).  `svd0` is the numpy SVD oracle giving the right
singular vector `v[0]` of the centered data matrix (used for `N > 2` only).

Source:
```
_check_data_atleast_2D(data)          # raises ValueError
origin = data.mean(axis=0); data = data - origin
if data.shape[0] == 2:
    direction = data[1] - data[0]
    norm = np.linalg.norm(direction)
    if norm != 0: direction /= norm
elif data.shape[0] > 2:
    _, _, v = np.linalg.svd(data, full_matrices=False); direction = v[0]
else:
    return 'estimate under-determined'
```
-/
noncomputable def lineEstimate (svd0 : List (List ℝ) → List ℝ)
    (data : List (List ℝ)) : Except String (Option LineModelND) :=
  if (data.headD []).length < 2 then .error "Input data must be at least 2D."
  else
    let origin := vmean data
    let centered := data.map (fun r => vsub r origin)
    if data.length = 2 then
      let direction := vsub (centered.getD 1 []) (centered.getD 0 [])
      let nrm := vnorm direction
      let direction := if nrm ≠ 0 then direction.map (· / nrm) else direction
      .ok (some ⟨origin, direction⟩)
    else if 2 < data.length then
      .ok (some ⟨origin, svd0 centered⟩)
    else
      .ok none

/-! ## `CircleModel` -/

/-- A fitted circle: `center` and `radius`. -/
structure CircleModel where
  center : ℝ × ℝ
  radius : ℝ

/-- Embedding of `CircleModel._estimate` as called from `from_estimate`.
`lstsq` is the `np.linalg.lstsq` oracle: given the design rows
`[2x, 2y, 1]` and the right-hand side `x**2 + y**2`, it returns the solved
coefficients and the numerical rank.  The dtype promotion to float is a
no-op over `ℝ`.

Source:
```
origin = data.mean(axis=0); data = data - origin; scale = data.std()
if scale < np.finfo(float_type).tiny: return <failure msg>
data /= scale
A = np.append(data * 2, np.ones(...), axis=1); f = np.sum(data**2, axis=1)
C, _, rank, _ = np.linalg.lstsq(A, f, rcond=None)
if rank != 3: return <failure msg>
center = C[0:2]
distances = spatial.minkowski_distance(center, data)
r = np.sqrt(np.mean(distances**2))
self.center = center * scale + origin; self.radius = r * scale
```
-/
noncomputable def circleEstimate
    (lstsq : List (ℝ × ℝ × ℝ) → List ℝ → (ℝ × ℝ × ℝ) × ℕ)
    (data : List (ℝ × ℝ)) : Except String (Option CircleModel) :=
  let origin := mean2 data
  let centered := center2 data origin
  let scale := stdAll centered
  if scale < TINY then .ok none
  else
    let pts := centered.map (fun q => (q.1 / scale, q.2 / scale))
    let A := pts.map (fun q => (2 * q.1, 2 * q.2, (1 : ℝ)))
    let f := pts.map (fun q => q.1 ^ 2 + q.2 ^ 2)
    let sol := lstsq A f
    if sol.2 ≠ 3 then .ok none
    else
      let c := (sol.1.1, sol.1.2.1)
      let distances := pts.map
        (fun q => Real.sqrt ((q.1 - c.1) ^ 2 + (q.2 - c.2) ^ 2))
      let r := Real.sqrt (((distances.map (· ^ 2)).sum) / (distances.length : ℝ))
      .ok (some ⟨(c.1 * scale + origin.1, c.2 * scale + origin.2), r * scale⟩)

/-! ## `EllipseModel`

3-vectors and 3×3 matrices are embedded as nested pairs with the standard
closed-form determinant/adjugate inverse; `D.T @ E` of two `(N, 3)` design
matrices is the sum over rows of the outer products `dᵢ eᵢᵀ`. -/

/-- A fitted ellipse: `center`, `axis_lengths` and `theta`. -/
structure EllipseModel where
  center : ℝ × ℝ
  axisLengths : ℝ × ℝ
  theta : ℝ

abbrev V3 := ℝ × ℝ × ℝ

abbrev M3 := V3 × V3 × V3

def dot3 (u v : V3) : ℝ := u.1 * v.1 + u.2.1 * v.2.1 + u.2.2 * v.2.2

def mulMV (A : M3) (v : V3) : V3 := (dot3 A.1 v, dot3 A.2.1 v, dot3 A.2.2 v)

def transpose3 (A : M3) : M3 :=
  ((A.1.1, A.2.1.1, A.2.2.1), (A.1.2.1, A.2.1.2.1, A.2.2.2.1),
   (A.1.2.2, A.2.1.2.2, A.2.2.2.2))

def mulMM (A B : M3) : M3 :=
  let Bt := transpose3 B
  ((dot3 A.1 Bt.1, dot3 A.1 Bt.2.1, dot3 A.1 Bt.2.2),
   (dot3 A.2.1 Bt.1, dot3 A.2.1 Bt.2.1, dot3 A.2.1 Bt.2.2),
   (dot3 A.2.2 Bt.1, dot3 A.2.2 Bt.2.1, dot3 A.2.2 Bt.2.2))

def madd (A B : M3) : M3 :=
  ((A.1.1 + B.1.1, A.1.2.1 + B.1.2.1, A.1.2.2 + B.1.2.2),
   (A.2.1.1 + B.2.1.1, A.2.1.2.1 + B.2.1.2.1, A.2.1.2.2 + B.2.1.2.2),
   (A.2.2.1 + B.2.2.1, A.2.2.2.1 + B.2.2.2.1, A.2.2.2.2 + B.2.2.2.2))

def msub (A B : M3) : M3 :=
  ((A.1.1 - B.1.1, A.1.2.1 - B.1.2.1, A.1.2.2 - B.1.2.2),
   (A.2.1.1 - B.2.1.1, A.2.1.2.1 - B.2.1.2.1, A.2.1.2.2 - B.2.1.2.2),
   (A.2.2.1 - B.2.2.1, A.2.2.2.1 - B.2.2.2.1, A.2.2.2.2 - B.2.2.2.2))

def msmul (c : ℝ) (A : M3) : M3 :=
  ((c * A.1.1, c * A.1.2.1, c * A.1.2.2),
   (c * A.2.1.1, c * A.2.1.2.1, c * A.2.1.2.2),
   (c * A.2.2.1, c * A.2.2.2.1, c * A.2.2.2.2))

def outer3 (u v : V3) : M3 :=
  ((u.1 * v.1, u.1 * v.2.1, u.1 * v.2.2),
   (u.2.1 * v.1, u.2.1 * v.2.1, u.2.1 * v.2.2),
   (u.2.2 * v.1, u.2.2 * v.2.1, u.2.2 * v.2.2))

def zeroM3 : M3 := ((0, 0, 0), (0, 0, 0), (0, 0, 0))

/-- Embedding of `D.T @ E` for two `(N, 3)` design matrices given as lists of rows. -/
def scatter (d e : List V3) : M3 :=
  (List.zipWith outer3 d e).foldr madd zeroM3

def det3 (A : M3) : ℝ :=
  A.1.1 * (A.2.1.2.1 * A.2.2.2.2 - A.2.1.2.2 * A.2.2.2.1)
  - A.1.2.1 * (A.2.1.1 * A.2.2.2.2 - A.2.1.2.2 * A.2.2.1)
  + A.1.2.2 * (A.2.1.1 * A.2.2.2.1 - A.2.1.2.1 * A.2.2.1)

/-- Embedding of `np.linalg.inv` of a 3×3 matrix via the adjugate. -/
noncomputable def inv3 (A : M3) : M3 :=
  msmul (1 / det3 A)
    ((A.2.1.2.1 * A.2.2.2.2 - A.2.1.2.2 * A.2.2.2.1,
      A.1.2.2 * A.2.2.2.1 - A.1.2.1 * A.2.2.2.2,
      A.1.2.1 * A.2.1.2.2 - A.1.2.2 * A.2.1.2.1),
     (A.2.1.2.2 * A.2.2.1 - A.2.1.1 * A.2.2.2.2,
      A.1.1 * A.2.2.2.2 - A.1.2.2 * A.2.2.1,
      A.2.1.1 * A.1.2.2 - A.1.1 * A.2.1.2.2),
     (A.2.1.1 * A.2.2.2.1 - A.2.1.2.1 * A.2.2.1,
      A.1.2.1 * A.2.2.1 - A.1.1 * A.2.2.2.1,
      A.1.1 * A.2.1.2.1 - A.1.2.1 * A.2.1.1))

/-- Constraint matrix `C1 = [[0, 0, 2], [0, -1, 0], [2, 0, 0]]` (eqn. 18
of Halir–Flusser); its determinant is 4, so `inv(C1)` never raises. -/
def C1mat : M3 := ((0, 0, 2), (0, -1, 0), (2, 0, 0))

/-- The eigenvector columns meeting the ellipse-validity constraint
`cond = 4 * eig_vecs[0,:] * eig_vecs[2,:] - eig_vecs[1,:]**2 > 0`. -/
noncomputable def selectValid : List V3 → List V3
  | [] => []
  | v :: rest =>
    if 0 < 4 * v.1 * v.2.2 - v.2.1 ^ 2 then v :: selectValid rest
    else selectValid rest

/-- Python float modulo `x % y` (sign of the divisor; for `y > 0` the
result lies in `[0, y)`). -/
noncomputable def fmod (x y : ℝ) : ℝ := x - y * (⌊x / y⌋ : ℝ)

/-- Conversion of the general conic `a x² + 2bxy + c y² + 2dx + 2fy + g = 0`
(with `abc` the selected eigenvector and `dfg = -S3⁻¹ S2ᵀ abc` before the
halving of `b`, `d`, `f`) into center/axes/angle form, followed by the
axis-convention swap, angle normalization `phi %= np.pi`, and the reversal
of the scale/origin normalization.  `np.nan_to_num(...).real` is the
identity in exact real arithmetic. -/
noncomputable def ellipseFromConic (abc dfg : V3) (scale : ℝ)
    (origin : ℝ × ℝ) : EllipseModel :=
  let a := abc.1
  let b := abc.2.1 / 2
  let c := abc.2.2
  let d := dfg.1 / 2
  let f := dfg.2.1 / 2
  let g := dfg.2.2
  let x0 := (c * d - b * f) / (b ^ 2 - a * c)
  let y0 := (a * f - b * d) / (b ^ 2 - a * c)
  let numerator := a * f ^ 2 + c * d ^ 2 + g * b ^ 2 - 2 * b * d * f - a * c * g
  let term := Real.sqrt ((a - c) ^ 2 + 4 * b ^ 2)
  let denominator1 := (b ^ 2 - a * c) * (term - (a + c))
  let denominator2 := (b ^ 2 - a * c) * (-term - (a + c))
  let width := Real.sqrt (2 * numerator / denominator1)
  let height := Real.sqrt (2 * numerator / denominator2)
  let phi1 := 0.5 * Real.arctan (2 * b / (a - c))
  let phi2 := if c < a then phi1 + 0.5 * Real.pi else phi1
  let w2 := if width < height then height else width
  let h2 := if width < height then width else height
  let phi3 := if width < height then phi2 + Real.pi / 2 else phi2
  { center := (x0 * scale + origin.1, y0 * scale + origin.2)
    axisLengths := (w2 * scale, h2 * scale)
    theta := fmod phi3 Real.pi }

/-- Embedding of `EllipseModel._estimate` as called from `from_estimate`.
`eig` is the `np.linalg.eig` oracle: the list of eigenvector columns of the
reduced scatter matrix `M`.  The `try: inv(C1) @ (S1 - S2 @ inv(S3) @ S2.T)`
block raises `LinAlgError` exactly when `S3` is singular (`C1` is a fixed
invertible matrix), which the source converts into the failure message
`'Singular matrix from estimation'`. -/
noncomputable def ellipseEstimate (eig : M3 → List V3)
    (data : List (ℝ × ℝ)) : Except String (Option EllipseModel) :=
  if data.length < 5 then .ok none
  else
    let origin := mean2 data
    let centered := center2 data origin
    let scale := stdAll centered
    if scale < TINY then .ok none
    else
      let pts := centered.map (fun q => (q.1 / scale, q.2 / scale))
      let d1 : List V3 := pts.map (fun q => (q.1 ^ 2, q.1 * q.2, q.2 ^ 2))
      let d2 : List V3 := pts.map (fun q => (q.1, q.2, (1 : ℝ)))
      let S1 := scatter d1 d1
      let S2 := scatter d1 d2
      let S3 := scatter d2 d2
      if det3 S3 = 0 then .ok none
      else
        let M := mulMM (inv3 C1mat)
          (msub S1 (mulMM S2 (mulMM (inv3 S3) (transpose3 S2))))
        match selectValid (eig M) with
        | [v] =>
          let a2 := mulMV (msmul (-1) (mulMM (inv3 S3) (transpose3 S2))) v
          .ok (some (ellipseFromConic v a2 scale origin))
        | _ => .ok none

/-! ## The RANSAC consensus engine

The model class is embedded as a pair of total functions (the
`RansacModelProtocol` capability set): `fromEstimate` plays
`model_class.from_estimate` with `none` for a falsy `FailedEstimation`
result, and `residuals` plays `model.residuals` on the full data set.

Modelled from the spec: `FailedEstimation` (from `skimage/_shared/utils.py`,
not among the sources) is falsy and carries no model attributes; attribute
access on it fails with the designated access error (a distinct
`AttributeError` kind), so the final `getattr(model, 'model', model)` of
`ransac` returns the sentinel itself, which we embed by keeping `none` in
the model slot of the result. -/

/-- The model-class capability set used by `ransac`. -/
structure ModelFns (α M : Type) where
  fromEstimate : List α → Option M
  residuals : M → List α → List ℚ

/-- All arguments of `ransac` except the data, with the random generator
embedded as the explicit sequence `draws` of `rng.choice` outputs. -/
structure RansacInput (α M : Type) where
  fns : ModelFns α M
  isDataValid : Option (List α → Bool)
  isModelValid : Option (Option M → List α → Bool)
  minSamples : ℤ
  residualThreshold : ℚ
  maxTrials : ℚ
  stopSampleNum : WithTop ℚ
  stopResidualsSum : ℚ
  stopProbability : ℚ
  draws : ℕ → List ℕ
  initialInliers : Option (List Bool)

/-- A row selection: the first trial may use the caller's boolean
`initial_inliers` mask, later trials use integer index arrays. -/
inductive Sel where
  | mask (m : List Bool)
  | idxs (l : List ℕ)

/-- Boolean-mask fancy indexing `d[mask]` (a fresh row list). -/
def maskGather {α : Type} (data : List α) (mask : List Bool) : List α :=
  (data.zip mask).filterMap (fun p => if p.2 then some p.1 else none)

/-- Integer fancy indexing `d[idxs]` (a fresh row list). -/
def idxGather {α : Type} (data : List α) (idxs : List ℕ) : List α :=
  idxs.filterMap (fun i => data.get? i)

def gatherSel {α : Type} (data : List α) : Sel → List α
  | Sel.mask m => maskGather data m
  | Sel.idxs l => idxGather data l

/-- Embedding of `np.abs(model.residuals(*data))`. -/
def absList (l : List ℚ) : List ℚ := l.map (fun r => |r|)

/-- Embedding of `residuals < residual_threshold`, the per-sample inlier flags. -/
def inlierMask (resAbs : List ℚ) (th : ℚ) : List Bool :=
  resAbs.map (fun r => decide (r < th))

/-- Embedding of `residuals.dot(residuals)` of the absolute residuals. -/
def sumSquares (l : List ℚ) : ℚ := (l.map (fun r => r ^ 2)).sum

/-- Apply `p(x)` when the optional predicate is supplied, else accept. -/
def checkOpt {β : Type} (p : Option (β → Bool)) (x : β) : Bool :=
  match p with
  | some f => f x
  | none => true

/-- One recorded replacement of the best-so-far state (newest data kept by
`ransac` in `best_inlier_num`, `best_inlier_residuals_sum`,
`best_inliers`; the estimated trial model is recorded here as provenance). -/
structure BestRec (M : Type) where
  count : ℕ
  sum : WithTop ℚ
  model : M
  inliers : List Bool

/-- The loop state of `ransac`.  `bestSum = ⊤` embeds the initial
`best_inlier_residuals_sum = np.inf`; `maxTrials : WithTop ℝ` because the
adaptive bound may be `np.inf` and otherwise is a float.  `history` is the
chronicle of best-so-far replacements, newest first; `stopped` records that
the `break` on a stop criterion fired. -/
structure RansacState (M : Type) where
  numTrials : ℕ
  drawCount : ℕ
  spl : Sel
  bestCount : ℕ
  bestSum : WithTop ℚ
  bestInliers : List Bool
  maxTrials : WithTop ℝ
  history : List (BestRec M)
  stopped : Bool

/-- One iteration of the `while num_trials < max_trials` loop body. -/
noncomputable def ransacStep {α M : Type} (inp : RansacInput α M)
    (data : List α) (st : RansacState M) : RansacState M :=
  let samples := gatherSel data st.spl
  let st1 : RansacState M :=
    { st with
      numTrials := st.numTrials + 1
      spl := Sel.idxs (inp.draws st.drawCount)
      drawCount := st.drawCount + 1 }
  if checkOpt inp.isDataValid samples = false then st1
  else
    match inp.fns.fromEstimate samples with
    | none => st1
    | some m =>
      if (match inp.isModelValid with
          | some f => f (some m) samples
          | none => true) = false then st1
      else
        let resAbs := absList (inp.fns.residuals m data)
        let inliers := inlierMask resAbs inp.residualThreshold
        let rsum := sumSquares resAbs
        let count := inliers.count true
        if st.bestCount < count ∨
            (count = st.bestCount ∧ ((rsum : WithTop ℚ) < st.bestSum)) then
          { st1 with
            bestCount := count
            bestSum := (rsum : WithTop ℚ)
            bestInliers := inliers
            maxTrials := min st1.maxTrials
              (dynamicMaxTrials count data.length inp.minSamples.toNat
                (inp.stopProbability : ℝ))
            history := ⟨count, (rsum : WithTop ℚ), m, inliers⟩ :: st.history
            stopped :=
              if inp.stopSampleNum ≤ (count : WithTop ℚ) ∨
                  rsum ≤ inp.stopResidualsSum then true else false }
        else st1

/-- The trial loop; the fuel is an upper bound on the iteration count,
never reached while the loop guard holds (each iteration increments
`num_trials` by one and `max_trials` never grows, so at most
`⌈max_trials⌉` iterations run). -/
noncomputable def ransacLoop {α M : Type} (inp : RansacInput α M)
    (data : List α) : ℕ → RansacState M → RansacState M
  | 0, st => st
  | Nat.succ fuel, st =>
    if st.stopped = false ∧ ((st.numTrials : ℝ) : WithTop ℝ) < st.maxTrials then
      ransacLoop inp data fuel (ransacStep inp data st)
    else st

/-- The loop state before the first trial: the first selection is the
caller's `initial_inliers` mask when given, else the first random draw. -/
def initState {α M : Type} (inp : RansacInput α M) : RansacState M :=
  { numTrials := 0
    drawCount := match inp.initialInliers with
      | some _ => 0
      | none => 1
    spl := match inp.initialInliers with
      | some mask => Sel.mask mask
      | none => Sel.idxs (inp.draws 0)
    bestCount := 0
    bestSum := ⊤
    bestInliers := []
    maxTrials := (((inp.maxTrials : ℝ)) : WithTop ℝ)
    history := []
    stopped := false }

/-- The loop state after all trials. -/
noncomputable def ransacRun {α M : Type} (inp : RansacInput α M)
    (data : List α) : RansacState M :=
  ransacLoop inp data ((⌈inp.maxTrials⌉ : ℤ).toNat + 1) (initState inp)

def noInlierWarning : String := "No inliers found. Model not fitted"

def invalidModelWarning : String :=
  "Estimated model is not valid. Try increasing max_trials."

/-- Finalization: re-estimate on the winning inlier set, re-validate with a
warning, or warn and return no model / no mask when no trial found any
inlier.  Result: (model slot, inlier-mask slot, emitted warnings), with
`some none` in the model slot for a falsy `FailedEstimation` result. -/
noncomputable def ransacFinalize {α M : Type} (inp : RansacInput α M)
    (data : List α) (st : RansacState M) :
    Option (Option M) × Option (List Bool) × List String :=
  if st.bestInliers.any id then
    let dataInliers := maskGather data st.bestInliers
    let model := inp.fns.fromEstimate dataInliers
    let warns := match inp.isModelValid with
      | some f => if f model dataInliers then [] else [invalidModelWarning]
      | none => []
    (some model, some st.bestInliers, warns)
  else
    (none, none, [noInlierWarning])

/-- Embedding of `ransac(data, model_class, ...)` for a single data array
(for a sequence of parallel arrays, `α` is the row-tuple type).  The five
eager validation checks appear in source order, before any sampling or
estimation; the protocol/`add_from_estimate` adaptation step is subsumed
by `ModelFns`. -/
noncomputable def ransac {α M : Type} (inp : RansacInput α M)
    (data : List α) :
    Except String (Option (Option M) × Option (List Bool) × List String) :=
  let numSamples := data.length
  if ¬(0 < inp.minSamples ∧ inp.minSamples ≤ (numSamples : ℤ)) then
    .error "min_samples must be in range (0, num_samples]"
  else if inp.residualThreshold < 0 then
    .error "residual_threshold must be greater than zero"
  else if inp.maxTrials < 0 then
    .error "max_trials must be greater than zero"
  else if ¬(0 ≤ inp.stopProbability ∧ inp.stopProbability ≤ 1) then
    .error "stop_probability must be in range 0 to 1"
  else if (match inp.initialInliers with
      | some ii => decide (ii.length ≠ numSamples)
      | none => false) = true then
    .error "initial_inliers length mismatch"
  else
    .ok (ransacFinalize inp data (ransacRun inp data))

/-- The strict best-so-far improvement relation (newer record first):
either strictly more inliers, or equally many with a strictly smaller sum
of squared residuals. -/
def updRel {M : Type} (newRec oldRec : BestRec M) : Prop :=
  oldRec.count < newRec.count ∨
    (newRec.count = oldRec.count ∧ newRec.sum < oldRec.sum)

/-- Loop invariant tying the best-so-far fields to the `history` chronicle:
the history is a chain of strict improvements, every recorded inlier mask
is the thresholded absolute-residual mask of its recorded trial model, and
the current best fields agree with the newest record (or are the initial
"no model found" values when no update has happened). -/
def StateOK {α M : Type} (inp : RansacInput α M) (data : List α)
    (st : RansacState M) : Prop :=
  List.Chain' updRel st.history ∧
  (∀ rec ∈ st.history,
    rec.inliers =
      inlierMask (absList (inp.fns.residuals rec.model data))
        inp.residualThreshold) ∧
  (st.history = [] →
    st.bestCount = 0 ∧ st.bestSum = ⊤ ∧ st.bestInliers = []) ∧
  (∀ rec rest, st.history = rec :: rest →
    st.bestCount = rec.count ∧ st.bestSum = rec.sum ∧
      st.bestInliers = rec.inliers)

/-! ## Concrete witness scenario for the ellipse estimator -/

/-- Five concrete data points for a successful ellipse estimation. -/
def dataW : List (ℝ × ℝ) := [(1, 0), (-1, 0), (0, 2), (0, -2), (0, 0)]

/-- A concrete eigen-decomposition oracle: exactly one returned column
satisfies the ellipse-validity constraint. -/
def eigW : M3 → List V3 := fun _ => [(1, 0, 2), (1, 0, -1), (0, 1, 0)]

/-- The model the embedding produces on `dataW` with `eigW`. -/
noncomputable def ellipseW : EllipseModel :=
  ⟨(0, 0), (Real.sqrt (18 / 5), Real.sqrt (9 / 5)), 0⟩

/-! ## Concrete RANSAC scenarios

Small model classes over `α = M = ℚ` exercising the engine; `ransac` is
generic in the model class, so these are legitimate instantiations of its
contract. -/

/-- Scenario A: the model is a rational number fitted as the mean of the
sample; residuals are signed distances to it. -/
def fnsA : ModelFns ℚ ℚ where
  fromEstimate := fun l => some (l.sum / (l.length : ℚ))
  residuals := fun m xs => xs.map (fun x => x - m)

def inpA : RansacInput ℚ ℚ where
  fns := fnsA
  isDataValid := none
  isModelValid := none
  minSamples := 1
  residualThreshold := 1
  maxTrials := 1
  stopSampleNum := ⊤
  stopResidualsSum := 0
  stopProbability := 1
  draws := fun _ => [0]
  initialInliers := none

def dataA : List ℚ := [0, 1 / 2, 6 / 5]

/-- Scenario B: a model class whose first trial yields zero inliers with a
small residual sum and whose second trial yields one inlier with a much
larger residual sum. -/
def fnsB : ModelFns ℚ ℚ where
  fromEstimate := fun l => some (l.headD 0)
  residuals := fun m _ => if m = 0 then [2, 2] else [0, 100]

def inpB : RansacInput ℚ ℚ where
  fns := fnsB
  isDataValid := none
  isModelValid := none
  minSamples := 1
  residualThreshold := 1
  maxTrials := 2
  stopSampleNum := ⊤
  stopResidualsSum := 0
  stopProbability := 1
  draws := fun n => if n = 0 then [0] else [1]
  initialInliers := none

def dataB : List ℚ := [0, 1]

/-- Scenario C: estimation succeeds on the one-point sample but fails on
the two-point winning inlier set, so the final re-estimation yields a
falsy Failed-Estimation result. -/
def fnsC : ModelFns ℚ ℚ where
  fromEstimate := fun l => if l.length = 1 then some 0 else none
  residuals := fun _ _ => [0, 0]

def inpC : RansacInput ℚ ℚ where
  fns := fnsC
  isDataValid := none
  isModelValid := none
  minSamples := 1
  residualThreshold := 1
  maxTrials := 1
  stopSampleNum := ⊤
  stopResidualsSum := 0
  stopProbability := 1
  draws := fun _ => [0]
  initialInliers := none

def dataC : List ℚ := [0, 1]

/-! ## Theorems: `_dynamic_max_trials` (claims C4, C5) -/

theorem EPSILON_pos : 0 < EPSILON := by norm_num [EPSILON]

theorem EPSILON_lt_one_sub : EPSILON ≤ 1 - EPSILON := by norm_num [EPSILON]

theorem npClip_mem_Icc {x lo hi : ℝ} (h : lo ≤ hi) :
    npClip x lo hi ∈ Set.Icc lo hi :=
  ⟨le_min (le_max_right x lo) h, min_le_right _ _⟩

theorem npClip_mono {x y : ℝ} (lo hi : ℝ) (h : x ≤ y) :
    npClip x lo hi ≤ npClip y lo hi :=
  min_le_min (max_le_max h le_rfl) le_rfl

theorem npClip_unit_pos (x : ℝ) : 0 < npClip x EPSILON (1 - EPSILON) :=
  lt_of_lt_of_le EPSILON_pos (npClip_mem_Icc EPSILON_lt_one_sub).1

/-- The logarithm of an epsilon-clipped probability is strictly negative:
this is what the source's comment about keeping the (de-)nominator inside
`[_EPSILON, 1 - _EPSILON]` guarantees. -/
theorem log_npClip_neg (x : ℝ) :
    Real.log (npClip x EPSILON (1 - EPSILON)) < 0 := by
  have hm := npClip_mem_Icc (x := x) EPSILON_lt_one_sub
  have hlt1 : npClip x EPSILON (1 - EPSILON) < 1 :=
    lt_of_le_of_lt hm.2 (by have := EPSILON_pos; linarith)
  exact Real.log_neg (npClip_unit_pos x) hlt1

/-- Claim C4: for fixed `n_samples`, `min_samples` and `probability`, the
adaptive trial bound `_dynamic_max_trials` is monotonically non-increasing
in the inlier count. -/
theorem dynamicMaxTrials_antitone_inliers (k1 k2 N m : ℕ) (p : ℝ)
    (hk : k1 ≤ k2) (hN : 0 < N) :
    dynamicMaxTrials k2 N m p ≤ dynamicMaxTrials k1 N m p := by
  by_cases hp : p = 0
  · simp [dynamicMaxTrials, hp]
  · by_cases hk1 : k1 = 0
    · simp only [dynamicMaxTrials, if_neg hp, if_pos hk1]
      exact le_top
    · have hk2 : k2 ≠ 0 := by
        intro h
        exact hk1 (Nat.le_zero.mp (h ▸ hk))
      simp only [dynamicMaxTrials, if_neg hp, if_neg hk1, if_neg hk2]
      set L := Real.log (npClip (1 - p) EPSILON (1 - EPSILON)) with hL
      set c1 := npClip (1 - ((k1 : ℝ) / (N : ℝ)) ^ m) EPSILON (1 - EPSILON)
        with hc1
      set c2 := npClip (1 - ((k2 : ℝ) / (N : ℝ)) ^ m) EPSILON (1 - EPSILON)
        with hc2
      have hNpos : (0 : ℝ) < (N : ℝ) := by exact_mod_cast hN
      have hr : (k1 : ℝ) / (N : ℝ) ≤ (k2 : ℝ) / (N : ℝ) :=
        (div_le_div_right hNpos).mpr (by exact_mod_cast hk)
      have hpow : ((k1 : ℝ) / (N : ℝ)) ^ m ≤ ((k2 : ℝ) / (N : ℝ)) ^ m :=
        pow_le_pow_left (div_nonneg (Nat.cast_nonneg k1) hNpos.le) hr m
      have hcle : c2 ≤ c1 := npClip_mono _ _ (by linarith)
      have hlog : Real.log c2 ≤ Real.log c1 :=
        Real.log_le_log (npClip_unit_pos _) hcle
      have hd1 : Real.log c1 < 0 := log_npClip_neg _
      have hd2 : Real.log c2 < 0 := log_npClip_neg _
      have hLneg : L < 0 := log_npClip_neg _
      have hdiv : L / Real.log c2 ≤ L / Real.log c1 := by
        have h1 : (0 : ℝ) ≤ -L := by linarith
        have h2 : (0 : ℝ) < -Real.log c1 := by linarith
        have h3 : -Real.log c1 ≤ -Real.log c2 := by linarith
        have := div_le_div_of_nonneg_left h1 h2 h3
        rwa [neg_div_neg_eq, neg_div_neg_eq] at this
      have hceil : (⌈L / Real.log c2⌉ : ℤ) ≤ ⌈L / Real.log c1⌉ :=
        Int.ceil_le_ceil hdiv
      exact_mod_cast WithTop.coe_le_coe.mpr
        (by exact_mod_cast hceil : ((⌈L / Real.log c2⌉ : ℤ) : ℝ) ≤
          ((⌈L / Real.log c1⌉ : ℤ) : ℝ))

/-- Witness for claim C4 at a concrete input. -/
theorem dynamicMaxTrials_antitone_inliers_witness :
    dynamicMaxTrials 2 10 2 (99 / 100) ≤ dynamicMaxTrials 1 10 2 (99 / 100) :=
  dynamicMaxTrials_antitone_inliers 1 2 10 2 (99 / 100) (by norm_num)
    (by norm_num)

/-- Claim C5: `_dynamic_max_trials` returns 0 when `probability == 0`,
`np.inf` when the probability is positive and the inlier count is zero,
and otherwise the clamped-logarithm ceiling, which is always finite and
non-negative. -/
theorem dynamicMaxTrials_cases (k N m : ℕ) (p : ℝ) :
    dynamicMaxTrials k N m 0 = 0 ∧
    (0 < p → dynamicMaxTrials 0 N m p = ⊤) ∧
    (0 < p → 0 < k →
      ∃ t : ℤ,
        dynamicMaxTrials k N m p = ((t : ℝ) : WithTop ℝ) ∧
        t = ⌈Real.log (npClip (1 - p) EPSILON (1 - EPSILON)) /
              Real.log (npClip (1 - ((k : ℝ) / (N : ℝ)) ^ m) EPSILON
                (1 - EPSILON))⌉ ∧
        0 ≤ t ∧ dynamicMaxTrials k N m p ≠ ⊤) := by
  refine ⟨by simp [dynamicMaxTrials], fun hp => ?_, fun hp hk => ?_⟩
  · simp [dynamicMaxTrials, ne_of_gt hp]
  · have hp' : p ≠ 0 := ne_of_gt hp
    have hk' : k ≠ 0 := Nat.pos_iff_ne_zero.mp hk
    refine ⟨⌈Real.log (npClip (1 - p) EPSILON (1 - EPSILON)) /
      Real.log (npClip (1 - ((k : ℝ) / (N : ℝ)) ^ m) EPSILON
        (1 - EPSILON))⌉, ?_, rfl, ?_, ?_⟩
    · simp [dynamicMaxTrials, hp', hk']
    · apply Int.ceil_nonneg
      have h1 : Real.log (npClip (1 - p) EPSILON (1 - EPSILON)) ≤ 0 :=
        (log_npClip_neg _).le
      have h2 : Real.log (npClip (1 - ((k : ℝ) / (N : ℝ)) ^ m) EPSILON
          (1 - EPSILON)) ≤ 0 := (log_npClip_neg _).le
      rw [← neg_div_neg_eq]
      exact div_nonneg (by linarith) (by linarith)
    · simp [dynamicMaxTrials, hp', hk']

/-- Witness for claim C5 at concrete inputs. -/
theorem dynamicMaxTrials_cases_witness :
    dynamicMaxTrials 1 2 1 0 = 0 ∧
    dynamicMaxTrials 0 2 1 (1 / 2) = ⊤ ∧
    (∃ t : ℤ,
      dynamicMaxTrials 1 2 1 (1 / 2) = ((t : ℝ) : WithTop ℝ) ∧
      t = ⌈Real.log (npClip (1 - (1 / 2)) EPSILON (1 - EPSILON)) /
            Real.log (npClip (1 - ((1 : ℝ) / (2 : ℝ)) ^ 1) EPSILON
              (1 - EPSILON))⌉ ∧
      0 ≤ t ∧ dynamicMaxTrials 1 2 1 (1 / 2) ≠ ⊤) := by
  refine ⟨(dynamicMaxTrials_cases 1 2 1 0).1, ?_, ?_⟩
  · exact (dynamicMaxTrials_cases 0 2 1 (1 / 2)).2.1 (by norm_num)
  · have h := (dynamicMaxTrials_cases 1 2 1 (1 / 2)).2.2 (by norm_num)
      (by norm_num)
    simpa using h

/-! ## Theorems: estimation on identical points (claim C1) -/

theorem vadd_map_mul (c : ℝ) (p : List ℝ) :
    vadd p (p.map (fun x => c * x)) = p.map (fun x => (c + 1) * x) := by
  induction p with
  | nil => rfl
  | cons a l ih =>
    simp only [vadd, List.map_cons, List.zipWith_cons_cons,
      List.cons.injEq] at ih ⊢
    exact ⟨by ring, ih⟩

theorem map_zero_mul (p : List ℝ) :
    p.map (fun x => (0 : ℝ) * x) = List.replicate p.length 0 := by
  induction p with
  | nil => rfl
  | cons a l ih => simp [ih, List.replicate_succ]

theorem vsum_replicate (n : ℕ) (p : List ℝ) :
    vsum p.length (List.replicate n p) = p.map (fun x => (n : ℝ) * x) := by
  induction n with
  | zero => simp [vsum, map_zero_mul]
  | succ k ih =>
    simp only [vsum, List.replicate_succ, List.foldr_cons] at ih ⊢
    rw [ih, vadd_map_mul]
    push_cast
    rfl

theorem map_mul_div_cancel {n : ℝ} (hne : n ≠ 0) (p : List ℝ) :
    (p.map (fun x => n * x)).map (· / n) = p := by
  induction p with
  | nil => rfl
  | cons a l ih =>
    simp only [List.map_cons, List.cons.injEq] at ih ⊢
    exact ⟨mul_div_cancel_left₀ a hne, ih⟩

theorem vmean_replicate {n : ℕ} (hn : 0 < n) (p : List ℝ) :
    vmean (List.replicate n p) = p := by
  have hne : ((n : ℝ)) ≠ 0 := Nat.cast_ne_zero.mpr (Nat.pos_iff_ne_zero.mp hn)
  have hhead : (List.replicate n p).headD [] = p := by
    obtain ⟨k, rfl⟩ := Nat.exists_eq_succ_of_ne_zero (Nat.pos_iff_ne_zero.mp hn)
    simp [List.replicate_succ]
  rw [vmean, hhead, vsum_replicate]
  simp only [List.length_replicate]
  exact map_mul_div_cancel hne p

theorem vsub_self (p : List ℝ) : vsub p p = List.replicate p.length 0 := by
  induction p with
  | nil => rfl
  | cons a l ih =>
    simp only [vsub] at ih
    simp [vsub, List.replicate_succ, ih]

theorem vnorm_zero (k : ℕ) : vnorm (List.replicate k 0) = 0 := by
  simp [vnorm, List.map_replicate]

theorem mean2_replicate {n : ℕ} (hn : 0 < n) (pt : ℝ × ℝ) :
    mean2 (List.replicate n pt) = pt := by
  have hne : ((n : ℝ)) ≠ 0 := Nat.cast_ne_zero.mpr (Nat.pos_iff_ne_zero.mp hn)
  simp only [mean2, List.map_replicate, List.sum_replicate, nsmul_eq_mul,
    List.length_replicate]
  rw [Prod.ext_iff]
  constructor <;> field_simp

theorem center2_replicate (n : ℕ) (pt : ℝ × ℝ) :
    center2 (List.replicate n pt) pt = List.replicate n (0, 0) := by
  simp [center2, List.map_replicate]

theorem flat_replicate_zero (n : ℕ) :
    (List.replicate n ((0 : ℝ), (0 : ℝ))).foldr
      (fun q acc => q.1 :: q.2 :: acc) [] = List.replicate (2 * n) 0 := by
  induction n with
  | zero => rfl
  | succ k ih =>
    simp only [List.replicate_succ, List.foldr_cons, ih]
    rw [show 2 * (k + 1) = (2 * k) + 1 + 1 by ring]
    simp [List.replicate_succ]

theorem stdAll_replicate_zero (n : ℕ) :
    stdAll (List.replicate n ((0 : ℝ), (0 : ℝ))) = 0 := by
  simp only [stdAll, flat_replicate_zero, List.sum_replicate, smul_zero,
    zero_div, sub_zero, List.map_replicate]
  norm_num

theorem TINY_pos : 0 < TINY := by norm_num [TINY]

theorem circleEstimate_replicate
    (lstsq : List (ℝ × ℝ × ℝ) → List ℝ → (ℝ × ℝ × ℝ) × ℕ) (pt : ℝ × ℝ)
    {n : ℕ} (hn : 3 ≤ n) :
    circleEstimate lstsq (List.replicate n pt) = .ok none := by
  have h0 : 0 < n := lt_of_lt_of_le (by norm_num) hn
  simp only [circleEstimate, mean2_replicate h0, center2_replicate,
    stdAll_replicate_zero]
  rw [if_pos TINY_pos]

theorem ellipseEstimate_replicate (eig : M3 → List V3) (pt : ℝ × ℝ)
    {n : ℕ} (hn : 5 ≤ n) :
    ellipseEstimate eig (List.replicate n pt) = .ok none := by
  have h0 : 0 < n := lt_of_lt_of_le (by norm_num) hn
  simp only [ellipseEstimate, List.length_replicate]
  rw [if_neg (by omega : ¬n < 5)]
  simp only [mean2_replicate h0, center2_replicate, stdAll_replicate_zero]
  rw [if_pos TINY_pos]

theorem lineEstimate_replicate (svd0 : List (List ℝ) → List ℝ) (p : List ℝ)
    {n : ℕ} (hp : 2 ≤ p.length) (hn : 2 ≤ n) :
    ∃ lm, lineEstimate svd0 (List.replicate n p) = .ok (some lm) := by
  have h0 : 0 < n := lt_of_lt_of_le (by norm_num) hn
  have hhead : (List.replicate n p).headD [] = p := by
    obtain ⟨k, rfl⟩ :=
      Nat.exists_eq_succ_of_ne_zero (Nat.pos_iff_ne_zero.mp h0)
    simp [List.replicate_succ]
  rcases eq_or_lt_of_le hn with h2 | h2
  · subst h2
    refine ⟨⟨p, List.replicate p.length 0⟩, ?_⟩
    simp only [lineEstimate, hhead]
    rw [if_neg (not_lt.mpr hp)]
    simp only [List.length_replicate, if_pos rfl, vmean_replicate h0]
    simp [List.replicate, vsub_self, vnorm_zero]
  · refine ⟨⟨vmean (List.replicate n p),
      svd0 ((List.replicate n p).map
        (fun r => vsub r (vmean (List.replicate n p))))⟩, ?_⟩
    simp only [lineEstimate, hhead]
    rw [if_neg (not_lt.mpr hp)]
    simp only [List.length_replicate]
    rw [if_neg (by omega : ¬n = 2), if_pos h2]

/-- Claim C1 (amended): on `N` identical points with `N` at least the
estimator's minimum, `CircleModel.from_estimate` and
`EllipseModel.from_estimate` return a falsy Failed-Estimation result
(the standard deviation of the centered data is exactly zero, below
`tiny`), whereas `LineModelND.from_estimate` instead returns a
successfully fitted model, for every behaviour of the external
`lstsq`/`eig`/`svd` kernels. -/
theorem identical_points_estimation :
    (∀ (lstsq : List (ℝ × ℝ × ℝ) → List ℝ → (ℝ × ℝ × ℝ) × ℕ)
        (pt : ℝ × ℝ) (n : ℕ), 3 ≤ n →
        circleEstimate lstsq (List.replicate n pt) = .ok none) ∧
    (∀ (eig : M3 → List V3) (pt : ℝ × ℝ) (n : ℕ), 5 ≤ n →
        ellipseEstimate eig (List.replicate n pt) = .ok none) ∧
    (∀ (svd0 : List (List ℝ) → List ℝ) (p : List ℝ) (n : ℕ),
        2 ≤ p.length → 2 ≤ n →
        ∃ lm, lineEstimate svd0 (List.replicate n p) = .ok (some lm)) :=
  ⟨fun lstsq pt n hn => circleEstimate_replicate lstsq pt hn,
   fun eig pt n hn => ellipseEstimate_replicate eig pt hn,
   fun svd0 p n hp hn => lineEstimate_replicate svd0 p hp hn⟩

/-- Witness for the amended claim C1 at concrete inputs. -/
theorem identical_points_estimation_witness :
    circleEstimate (fun _ _ => ((0, 0, 0), 0))
      (List.replicate 3 ((1 : ℝ), (2 : ℝ))) = .ok none ∧
    ellipseEstimate (fun _ => [])
      (List.replicate 5 ((1 : ℝ), (2 : ℝ))) = .ok none ∧
    (∃ lm, lineEstimate (fun _ => [])
      (List.replicate 2 [(1 : ℝ), 1]) = .ok (some lm)) :=
  ⟨identical_points_estimation.1 _ _ 3 (by norm_num),
   identical_points_estimation.2.1 _ _ 5 (by norm_num),
   identical_points_estimation.2.2 _ _ 2 (by norm_num) (by norm_num)⟩

/-- Counterexample to claim C1 as stated: `LineModelND.from_estimate` on
the two identical points `[[1, 1], [1, 1]]` (`N = 2`, the estimator's
minimum) returns a truthy fitted model — origin the common point and
direction the zero vector, since `norm == 0` skips the normalization —
not a falsy Failed-Estimation result. -/
theorem lineEstimate_identical_points_succeeds :
    lineEstimate (fun _ => []) [[(1 : ℝ), 1], [1, 1]] =
      .ok (some ⟨[1, 1], [0, 0]⟩) ∧
    (Except.ok (some ⟨[1, 1], [0, 0]⟩) :
      Except String (Option LineModelND)) ≠ .ok none := by
  refine ⟨?_, by simp⟩
  norm_num [lineEstimate, vmean, vsum, vadd, vsub, vnorm, List.getD,
    List.replicate]

/-! ## Theorems: ellipse parameter conventions (claim C8) -/

theorem fmod_nonneg (x : ℝ) {y : ℝ} (hy : 0 < y) : 0 ≤ fmod x y := by
  rw [fmod, sub_nonneg]
  have h := Int.floor_le (x / y)
  calc y * (⌊x / y⌋ : ℝ) ≤ y * (x / y) :=
        mul_le_mul_of_nonneg_left h hy.le
    _ = x := by rw [mul_comm, div_mul_cancel₀ x (ne_of_gt hy)]

theorem fmod_lt (x : ℝ) {y : ℝ} (hy : 0 < y) : fmod x y < y := by
  rw [fmod, sub_lt_iff_lt_add]
  have h := Int.lt_floor_add_one (x / y)
  calc x = x / y * y := by rw [div_mul_cancel₀ x (ne_of_gt hy)]
    _ < ((⌊x / y⌋ : ℝ) + 1) * y := by
        exact mul_lt_mul_of_pos_right h hy
    _ = y + y * (⌊x / y⌋ : ℝ) := by ring

theorem stdAll_nonneg (data : List (ℝ × ℝ)) : 0 ≤ stdAll data :=
  Real.sqrt_nonneg _

/-- The conic-to-geometry conversion enforces the axis convention (swap
when `width < height`) and leaves the angle reduced mod `π`, for any
non-negative scale factor. -/
theorem ellipseFromConic_convention (abc dfg : V3) {scale : ℝ}
    (hs : 0 ≤ scale) (origin : ℝ × ℝ) :
    (ellipseFromConic abc dfg scale origin).axisLengths.2 ≤
      (ellipseFromConic abc dfg scale origin).axisLengths.1 ∧
    0 ≤ (ellipseFromConic abc dfg scale origin).theta ∧
    (ellipseFromConic abc dfg scale origin).theta < Real.pi := by
  simp only [ellipseFromConic]
  refine ⟨?_, fmod_nonneg _ Real.pi_pos, fmod_lt _ Real.pi_pos⟩
  split_ifs with h
  · exact mul_le_mul_of_nonneg_right h.le hs
  · exact mul_le_mul_of_nonneg_right (not_lt.mp h) hs

/-- Claim C8: every model produced by a successful
`EllipseModel.from_estimate` satisfies `axis_lengths[0] >= axis_lengths[1]`
and has `theta` normalized into `[0, pi)`, for any behaviour of the
eigen-decomposition kernel. -/
theorem ellipseEstimate_convention (eig : M3 → List V3)
    (data : List (ℝ × ℝ)) (m : EllipseModel)
    (h : ellipseEstimate eig data = .ok (some m)) :
    m.axisLengths.2 ≤ m.axisLengths.1 ∧
      0 ≤ m.theta ∧ m.theta < Real.pi := by
  simp only [ellipseEstimate] at h
  split_ifs at h
  · exact absurd h (by simp)
  · exact absurd h (by simp)
  · exact absurd h (by simp)
  · rcases hsel : selectValid (eig _) with _ | ⟨v, _ | ⟨w, rest⟩⟩
    all_goals rw [hsel] at h
    · exact absurd h (by simp)
    · simp only [Except.ok.injEq, Option.some.injEq] at h
      subst h
      exact ellipseFromConic_convention _ _ (stdAll_nonneg _) _
    · exact absurd h (by simp)


theorem hmeanW : mean2 dataW = (0, 0) := by norm_num [mean2, dataW]

theorem hcentW : center2 dataW (0, 0) = dataW := by norm_num [center2, dataW]

theorem hstdW : stdAll dataW = 1 := by norm_num [stdAll, dataW]

theorem hd1W :
    dataW.map (fun q => (q.1 ^ 2, q.1 * q.2, q.2 ^ 2)) =
      [((1:ℝ), (0:ℝ), (0:ℝ)), (1, 0, 0), (0, 0, 4), (0, 0, 4), (0, 0, 0)] := by
  norm_num [dataW]

theorem hd2W :
    dataW.map (fun q => (q.1, q.2, (1:ℝ))) =
      [((1:ℝ), (0:ℝ), (1:ℝ)), (-1, 0, 1), (0, 2, 1), (0, -2, 1), (0, 0, 1)] := by
  norm_num [dataW]

theorem hS2W :
    scatter [((1:ℝ), (0:ℝ), (0:ℝ)), (1, 0, 0), (0, 0, 4), (0, 0, 4), (0, 0, 0)]
      [((1:ℝ), (0:ℝ), (1:ℝ)), (-1, 0, 1), (0, 2, 1), (0, -2, 1), (0, 0, 1)] =
      (((0:ℝ), (0:ℝ), (2:ℝ)), ((0:ℝ), (0:ℝ), (0:ℝ)), ((0:ℝ), (0:ℝ), (8:ℝ))) := by
  norm_num [scatter, outer3, madd, zeroM3]

theorem hS3W :
    scatter [((1:ℝ), (0:ℝ), (1:ℝ)), (-1, 0, 1), (0, 2, 1), (0, -2, 1), (0, 0, 1)]
      [((1:ℝ), (0:ℝ), (1:ℝ)), (-1, 0, 1), (0, 2, 1), (0, -2, 1), (0, 0, 1)] =
      (((2:ℝ), (0:ℝ), (0:ℝ)), ((0:ℝ), (8:ℝ), (0:ℝ)), ((0:ℝ), (0:ℝ), (5:ℝ))) := by
  norm_num [scatter, outer3, madd, zeroM3]

theorem hselW :
    selectValid [((1:ℝ), (0:ℝ), (2:ℝ)), (1, 0, -1), (0, 1, 0)] = [(1, 0, 2)] := by
  rw [selectValid, if_pos (by norm_num), selectValid, if_neg (by norm_num),
    selectValid, if_neg (by norm_num), selectValid]

theorem ha2W :
    mulMV (msmul (-1) (mulMM
        (inv3 (((2:ℝ), (0:ℝ), (0:ℝ)), ((0:ℝ), (8:ℝ), (0:ℝ)), ((0:ℝ), (0:ℝ), (5:ℝ))))
        (transpose3 (((0:ℝ), (0:ℝ), (2:ℝ)), ((0:ℝ), (0:ℝ), (0:ℝ)), ((0:ℝ), (0:ℝ), (8:ℝ))))))
      (1, 0, 2) = (0, 0, -18/5) := by
  norm_num [mulMV, msmul, mulMM, inv3, det3, transpose3, dot3]

theorem hconicW :
    ellipseFromConic ((1:ℝ), (0:ℝ), (2:ℝ)) ((0:ℝ), (0:ℝ), (-18/5 : ℝ)) 1 (0, 0) =
      ellipseW := by
  have h5 : (0:ℝ) < Real.sqrt 5 := Real.sqrt_pos.mpr (by norm_num)
  have hnlt : ¬ (Real.sqrt 18 / Real.sqrt 5 < Real.sqrt 9 / Real.sqrt 5) :=
    not_lt.mpr ((div_le_div_right h5).mpr (Real.sqrt_le_sqrt (by norm_num)))
  have hfmod : fmod 0 Real.pi = 0 := by simp [fmod]
  simp only [ellipseFromConic, ellipseW]
  norm_num [Real.arctan_zero, Real.sqrt_one, hnlt, hfmod]

theorem hevalW : ellipseEstimate eigW dataW = .ok (some ellipseW) := by
  have hlen : dataW.length = 5 := rfl
  simp only [ellipseEstimate, hmeanW, hcentW, hstdW, hlen]
  rw [if_neg (by norm_num : ¬ (5:ℕ) < 5)]
  rw [if_neg (by norm_num [TINY] : ¬ (1:ℝ) < TINY)]
  simp only [div_one, Prod.mk.eta, List.map_id, List.map_id']
  rw [hd1W, hd2W, hS2W, hS3W]
  rw [if_neg (by norm_num [det3] :
    ¬ det3 (((2:ℝ), (0:ℝ), (0:ℝ)), ((0:ℝ), (8:ℝ), (0:ℝ)), ((0:ℝ), (0:ℝ), (5:ℝ))) = 0)]
  simp only [eigW]
  rw [hselW]
  simp only [ha2W, hconicW]

/-- Witness for claim C8 at a concrete successful estimation. -/
theorem ellipseEstimate_convention_witness :
    ellipseW.axisLengths.2 ≤ ellipseW.axisLengths.1 ∧
      0 ≤ ellipseW.theta ∧ ellipseW.theta < Real.pi :=
  ellipseEstimate_convention eigW dataW ellipseW hevalW


/-! ## Theorems: concrete RANSAC runs (scenarios A, B, C) -/

theorem stepA1 : ransacStep inpA dataA (initState inpA) =
    { numTrials := 1, drawCount := 2, spl := Sel.idxs [0], bestCount := 2,
      bestSum := ((169 / 100 : ℚ) : WithTop ℚ),
      bestInliers := [true, true, false],
      maxTrials := min 1 (dynamicMaxTrials 2 3 1 1),
      history := [⟨2, ((169 / 100 : ℚ) : WithTop ℚ), 0, [true, true, false]⟩],
      stopped := false } := by
  simp [ransacStep, initState, inpA, fnsA, dataA, gatherSel, idxGather,
    absList, inlierMask, sumSquares, checkOpt]
  norm_num [abs_of_nonneg, List.count_cons, ← WithTop.coe_add,
    ← WithTop.coe_pow, WithTop.coe_eq_coe]

theorem runA : ransacRun inpA dataA =
    { numTrials := 1, drawCount := 2, spl := Sel.idxs [0], bestCount := 2,
      bestSum := ((169 / 100 : ℚ) : WithTop ℚ),
      bestInliers := [true, true, false],
      maxTrials := min 1 (dynamicMaxTrials 2 3 1 1),
      history := [⟨2, ((169 / 100 : ℚ) : WithTop ℚ), 0, [true, true, false]⟩],
      stopped := false } := by
  have hfuel : ((⌈inpA.maxTrials⌉ : ℤ).toNat + 1) = 2 := by norm_num [inpA]
  rw [ransacRun, hfuel]
  show ransacLoop inpA dataA (Nat.succ 1) (initState inpA) = _
  rw [ransacLoop]
  rw [if_pos (by refine ⟨rfl, ?_⟩; norm_num [initState, inpA])]
  rw [stepA1]
  show ransacLoop inpA dataA (Nat.succ 0) _ = _
  rw [ransacLoop]
  have h2 : ¬ ((((1 : ℕ) : ℝ) : WithTop ℝ) <
      min 1 (dynamicMaxTrials 2 3 1 1)) := by
    refine not_lt.mpr (le_trans (min_le_left _ _) ?_)
    norm_num
  rw [if_neg (fun hq => absurd hq.2 h2)]

theorem ransacA_eval : ransac inpA dataA =
    .ok (some (some (1 / 4)), some [true, true, false], []) := by
  rw [ransac]
  rw [runA]
  norm_num [inpA, dataA, ransacFinalize, maskGather, fnsA,
    List.filterMap_cons, List.filterMap_nil]

theorem stepB1 : ransacStep inpB dataB (initState inpB) =
    { numTrials := 1, drawCount := 2, spl := Sel.idxs [1], bestCount := 0,
      bestSum := ((8 : ℚ) : WithTop ℚ), bestInliers := [false, false],
      maxTrials := ((2 : ℝ) : WithTop ℝ),
      history := [⟨0, ((8 : ℚ) : WithTop ℚ), 0, [false, false]⟩],
      stopped := false } := by
  simp [ransacStep, initState, inpB, fnsB, dataB, gatherSel, idxGather,
    absList, inlierMask, sumSquares, checkOpt, dynamicMaxTrials]
  norm_num [List.count_cons, ← WithTop.coe_add, ← WithTop.coe_pow,
    WithTop.coe_eq_coe]
  have h8 : ((2 : WithTop ℚ) ^ 2 + 2 ^ 2) = ((8 : ℚ) : WithTop ℚ) := by
    rw [show ((2 : WithTop ℚ)) = ((2 : ℚ) : WithTop ℚ) from rfl]
    norm_cast
  have hlt : ((2 : WithTop ℚ) ^ 2 + 2 ^ 2) < ⊤ := by
    rw [h8]
    exact WithTop.coe_lt_top _
  rw [if_pos hlt, h8]
  norm_cast

theorem stepB2 : ransacStep inpB dataB
    { numTrials := 1, drawCount := 2, spl := Sel.idxs [1], bestCount := 0,
      bestSum := ((8 : ℚ) : WithTop ℚ), bestInliers := [false, false],
      maxTrials := ((2 : ℝ) : WithTop ℝ),
      history := [⟨0, ((8 : ℚ) : WithTop ℚ), 0, [false, false]⟩],
      stopped := false } =
    { numTrials := 2, drawCount := 3, spl := Sel.idxs [1], bestCount := 1,
      bestSum := ((10000 : ℚ) : WithTop ℚ), bestInliers := [true, false],
      maxTrials := min ((2 : ℝ) : WithTop ℝ) (dynamicMaxTrials 1 2 1 1),
      history := [⟨1, ((10000 : ℚ) : WithTop ℚ), 1, [true, false]⟩,
        ⟨0, ((8 : ℚ) : WithTop ℚ), 0, [false, false]⟩],
      stopped := false } := by
  simp [ransacStep, inpB, fnsB, dataB, gatherSel, idxGather,
    absList, inlierMask, sumSquares, checkOpt]
  rw [show ((100 : WithTop ℚ)) = ((100 : ℚ) : WithTop ℚ) from rfl]
  norm_cast

theorem runB : ransacRun inpB dataB =
    { numTrials := 2, drawCount := 3, spl := Sel.idxs [1], bestCount := 1,
      bestSum := ((10000 : ℚ) : WithTop ℚ), bestInliers := [true, false],
      maxTrials := min ((2 : ℝ) : WithTop ℝ) (dynamicMaxTrials 1 2 1 1),
      history := [⟨1, ((10000 : ℚ) : WithTop ℚ), 1, [true, false]⟩,
        ⟨0, ((8 : ℚ) : WithTop ℚ), 0, [false, false]⟩],
      stopped := false } := by
  have hfuel : ((⌈inpB.maxTrials⌉ : ℤ).toNat + 1) = 3 := by
    have hc : (⌈inpB.maxTrials⌉ : ℤ) = 2 := by norm_num [inpB]
    rw [hc]
    decide
  rw [ransacRun, hfuel]
  show ransacLoop inpB dataB (Nat.succ 2) (initState inpB) = _
  rw [ransacLoop]
  rw [if_pos (by refine ⟨rfl, ?_⟩; norm_num [initState, inpB])]
  rw [stepB1]
  show ransacLoop inpB dataB (Nat.succ 1) _ = _
  rw [ransacLoop]
  rw [if_pos (by refine ⟨rfl, ?_⟩; norm_num)]
  rw [stepB2]
  show ransacLoop inpB dataB (Nat.succ 0) _ = _
  rw [ransacLoop]
  have h2 : ¬ ((((2 : ℕ) : ℝ) : WithTop ℝ) <
      min ((2 : ℝ) : WithTop ℝ) (dynamicMaxTrials 1 2 1 1)) := by
    refine not_lt.mpr (le_trans (min_le_left _ _) ?_)
    norm_num
  rw [if_neg (fun hq => absurd hq.2 h2)]

theorem stepC1 : ransacStep inpC dataC (initState inpC) =
    { numTrials := 1, drawCount := 2, spl := Sel.idxs [0], bestCount := 2,
      bestSum := ((0 : ℚ) : WithTop ℚ), bestInliers := [true, true],
      maxTrials := min 1 (dynamicMaxTrials 2 2 1 1),
      history := [⟨2, ((0 : ℚ) : WithTop ℚ), 0, [true, true]⟩],
      stopped := true } := by
  simp [ransacStep, initState, inpC, fnsC, dataC, gatherSel, idxGather,
    absList, inlierMask, sumSquares, checkOpt]

theorem runC : ransacRun inpC dataC =
    { numTrials := 1, drawCount := 2, spl := Sel.idxs [0], bestCount := 2,
      bestSum := ((0 : ℚ) : WithTop ℚ), bestInliers := [true, true],
      maxTrials := min 1 (dynamicMaxTrials 2 2 1 1),
      history := [⟨2, ((0 : ℚ) : WithTop ℚ), 0, [true, true]⟩],
      stopped := true } := by
  have hfuel : ((⌈inpC.maxTrials⌉ : ℤ).toNat + 1) = 2 := by norm_num [inpC]
  rw [ransacRun, hfuel]
  show ransacLoop inpC dataC (Nat.succ 1) (initState inpC) = _
  rw [ransacLoop]
  rw [if_pos (by refine ⟨rfl, ?_⟩; norm_num [initState, inpC])]
  rw [stepC1]
  show ransacLoop inpC dataC (Nat.succ 0) _ = _
  rw [ransacLoop]
  rw [if_neg (fun hq => by simp at hq)]

/-! ## Theorems: the engine's best-so-far invariant -/

theorem stateOK_init {α M : Type} (inp : RansacInput α M) (data : List α) :
    StateOK inp data (initState inp) := by
  refine ⟨List.chain'_nil, ?_, ?_, ?_⟩
  · intro rec hrec
    simp [initState] at hrec
  · intro _
    exact ⟨rfl, rfl, rfl⟩
  · intro rec rest hh
    simp [initState] at hh

theorem stateOK_step {α M : Type} (inp : RansacInput α M) (data : List α)
    (st : RansacState M) (h : StateOK inp data st) :
    StateOK inp data (ransacStep inp data st) := by
  obtain ⟨hch, hmask, hnil, hcons⟩ := h
  simp only [ransacStep]
  by_cases hdv : checkOpt inp.isDataValid (gatherSel data st.spl) = false
  · rw [if_pos hdv]
    exact ⟨hch, hmask, hnil, hcons⟩
  · rw [if_neg hdv]
    cases hest : inp.fns.fromEstimate (gatherSel data st.spl) with
    | none => exact ⟨hch, hmask, hnil, hcons⟩
    | some m =>
      dsimp only
      by_cases hmv : (match inp.isModelValid with
          | some f => f (some m) (gatherSel data st.spl)
          | none => true) = false
      · rw [if_pos hmv]
        exact ⟨hch, hmask, hnil, hcons⟩
      · rw [if_neg hmv]
        by_cases hupd : st.bestCount <
            List.count true (inlierMask (absList (inp.fns.residuals m data))
              inp.residualThreshold) ∨
            (List.count true (inlierMask (absList (inp.fns.residuals m data))
              inp.residualThreshold) = st.bestCount ∧
              ((sumSquares (absList (inp.fns.residuals m data)) : WithTop ℚ) <
                st.bestSum))
        · rw [if_pos hupd]
          refine ⟨?_, ?_, ?_, ?_⟩
          · rw [List.chain'_cons']
            refine ⟨?_, hch⟩
            intro b hb
            cases hh : st.history with
            | nil => rw [hh] at hb; simp at hb
            | cons r0 rest =>
              rw [hh] at hb
              simp only [List.head?_cons, Option.mem_def,
                Option.some.injEq] at hb
              subst hb
              obtain ⟨hc, hs, _⟩ := hcons r0 rest hh
              rcases hupd with h1 | ⟨h1, h2⟩
              · exact Or.inl (hc ▸ h1)
              · exact Or.inr ⟨hc ▸ h1, hs ▸ h2⟩
          · intro rec hrec
            rcases List.mem_cons.mp hrec with hr | hr
            · subst hr; rfl
            · exact hmask rec hr
          · intro habs
            simp at habs
          · intro rec rest hre
            injection hre with hh1 hh2
            subst hh1
            exact ⟨rfl, rfl, rfl⟩
        · rw [if_neg hupd]
          exact ⟨hch, hmask, hnil, hcons⟩

theorem stateOK_loop {α M : Type} (inp : RansacInput α M) (data : List α) :
    ∀ (fuel : ℕ) (st : RansacState M), StateOK inp data st →
      StateOK inp data (ransacLoop inp data fuel st) := by
  intro fuel
  induction fuel with
  | zero => intro st h; exact h
  | succ k ih =>
    intro st h
    rw [ransacLoop]
    split_ifs with hg
    · exact ih _ (stateOK_step inp data st h)
    · exact h

theorem stateOK_run {α M : Type} (inp : RansacInput α M) (data : List α) :
    StateOK inp data (ransacRun inp data) :=
  stateOK_loop inp data _ _ (stateOK_init inp data)

/-! ## Theorems: trial budget monotonicity (claim C6) -/

theorem ransacStep_maxTrials_le {α M : Type} (inp : RansacInput α M)
    (data : List α) (st : RansacState M) :
    (ransacStep inp data st).maxTrials ≤ st.maxTrials := by
  simp only [ransacStep]
  by_cases hdv : checkOpt inp.isDataValid (gatherSel data st.spl) = false
  · rw [if_pos hdv]
  · rw [if_neg hdv]
    cases hest : inp.fns.fromEstimate (gatherSel data st.spl) with
    | none => exact le_rfl
    | some m =>
      dsimp only
      by_cases hmv : (match inp.isModelValid with
          | some f => f (some m) (gatherSel data st.spl)
          | none => true) = false
      · rw [if_pos hmv]
      · rw [if_neg hmv]
        by_cases hupd : st.bestCount <
            List.count true (inlierMask (absList (inp.fns.residuals m data))
              inp.residualThreshold) ∨
            (List.count true (inlierMask (absList (inp.fns.residuals m data))
              inp.residualThreshold) = st.bestCount ∧
              ((sumSquares (absList (inp.fns.residuals m data)) : WithTop ℚ) <
                st.bestSum))
        · rw [if_pos hupd]
          exact min_le_left _ _
        · rw [if_neg hupd]

theorem ransacLoop_maxTrials_le {α M : Type} (inp : RansacInput α M)
    (data : List α) :
    ∀ (fuel : ℕ) (st : RansacState M),
      (ransacLoop inp data fuel st).maxTrials ≤ st.maxTrials := by
  intro fuel
  induction fuel with
  | zero => intro st; exact le_rfl
  | succ k ih =>
    intro st
    rw [ransacLoop]
    split_ifs with hg
    · exact le_trans (ih _) (ransacStep_maxTrials_le inp data st)
    · exact le_rfl

/-- Claim C6: the trial budget only ever tightens.  On an update the new
`max_trials` is the `min` of the old value and the adaptive bound, so one
step never increases it, the whole loop never increases it, and the final
value is at most the caller-supplied `max_trials`. -/
theorem ransac_maxTrials_nonincreasing {α M : Type} (inp : RansacInput α M)
    (data : List α) :
    (∀ st : RansacState M,
      (ransacStep inp data st).maxTrials ≤ st.maxTrials) ∧
    (∀ (fuel : ℕ) (st : RansacState M),
      (ransacLoop inp data fuel st).maxTrials ≤ st.maxTrials) ∧
    (ransacRun inp data).maxTrials ≤ ((inp.maxTrials : ℝ) : WithTop ℝ) :=
  ⟨ransacStep_maxTrials_le inp data, ransacLoop_maxTrials_le inp data,
   ransacLoop_maxTrials_le inp data _ _⟩

/-- Claim C3 (amended): every replacement of the best-so-far state strictly
improves it in the engine's total order — strictly more inliers, or equally
many with a strictly smaller sum of squared residuals.  (The recorded best
sum itself may grow when the inlier count grows.)  `history` lists the
best-so-far replacements of a run, newest first. -/
theorem ransac_best_update_improves {α M : Type} (inp : RansacInput α M)
    (data : List α) :
    List.Chain' updRel (ransacRun inp data).history :=
  (stateOK_run inp data).1

/-- Counterexample to claim C3 as stated: a run of two trials in which the
second best-so-far replacement (one inlier, residual sum 10000) replaces
the first (zero inliers, residual sum 8), so the recorded best sum of
squared residuals strictly increases across an update. -/
theorem ransac_best_sum_can_increase :
    (ransacRun inpB dataB).history.map (fun rec => (rec.count, rec.sum)) =
      [(1, ((10000 : ℚ) : WithTop ℚ)), (0, ((8 : ℚ) : WithTop ℚ))] ∧
    ((8 : ℚ) : WithTop ℚ) < ((10000 : ℚ) : WithTop ℚ) := by
  rw [runB]
  refine ⟨rfl, ?_⟩
  exact WithTop.coe_lt_coe.mpr (by norm_num)


theorem initialInliers_check_iff (o : Option (List Bool)) (n : ℕ) :
    ((match o with
      | some ii => decide (ii.length ≠ n)
      | none => false) = true) ↔ (∃ ii, o = some ii ∧ ii.length ≠ n) := by
  cases o <;> simp

/-- Claim C7: `ransac` raises exactly when one of the five eager validation
checks fails — `min_samples` outside `(0, N]`, a negative
`residual_threshold`, a negative `max_trials`, `stop_probability` outside
`[0, 1]`, or an initial-inlier mask whose length differs from `N` — and
these checks precede the trial loop, so well-formed inputs never raise. -/
theorem ransac_validation_iff {α M : Type} (inp : RansacInput α M)
    (data : List α) :
    (∃ e, ransac inp data = .error e) ↔
      (¬(0 < inp.minSamples ∧ inp.minSamples ≤ (data.length : ℤ)) ∨
       inp.residualThreshold < 0 ∨
       inp.maxTrials < 0 ∨
       ¬(0 ≤ inp.stopProbability ∧ inp.stopProbability ≤ 1) ∨
       (∃ ii, inp.initialInliers = some ii ∧ ii.length ≠ data.length)) := by
  simp only [ransac]
  split_ifs with h1 h2 h3 h4 h5
  · exact ⟨fun _ => Or.inr (Or.inl h2), fun _ => ⟨_, rfl⟩⟩
  · exact ⟨fun _ => Or.inr (Or.inr (Or.inl h3)), fun _ => ⟨_, rfl⟩⟩
  · exact ⟨fun _ => Or.inr (Or.inr (Or.inr (Or.inr
      ((initialInliers_check_iff _ _).mp h5)))), fun _ => ⟨_, rfl⟩⟩
  · constructor
    · rintro ⟨e, he⟩
      exact he.elim
    · rintro (hc | hc | hc | hc | hc)
      · exact absurd h1 hc
      · exact absurd hc h2
      · exact absurd hc h3
      · exact absurd h4 hc
      · exact absurd ((initialInliers_check_iff _ _).mpr hc) h5
  · exact ⟨fun _ => Or.inr (Or.inr (Or.inr (Or.inl h4))), fun _ => ⟨_, rfl⟩⟩
  · exact ⟨fun _ => Or.inl h1, fun _ => ⟨_, rfl⟩⟩


/-- Claim C2 (amended): a non-None inlier mask returned by `ransac` is the
recorded mask of the winning trial — `rec`, the newest record of the run's
best-so-far chronicle, whose `rec.model` is the model estimated from the
winning random sample.  The mask equals the thresholded absolute residuals
of that trial model; the model returned alongside it is instead the
re-estimation over the mask's rows, and the mask is not recomputed under
it.  The mask's length is the length of the trial model's residual vector
(N whenever the model's `residuals` respects its contract). -/
theorem ransac_mask_from_best_trial_model {α M : Type}
    (inp : RansacInput α M) (data : List α) (mo : Option (Option M))
    (μ : List Bool) (w : List String)
    (h : ransac inp data = .ok (mo, some μ, w)) :
    ∃ rec rest, (ransacRun inp data).history = rec :: rest ∧
      μ = rec.inliers ∧
      μ = inlierMask (absList (inp.fns.residuals rec.model data))
        inp.residualThreshold ∧
      mo = some (inp.fns.fromEstimate (maskGather data μ)) ∧
      ((inp.fns.residuals rec.model data).length = data.length →
        μ.length = data.length) := by
  simp only [ransac] at h
  split_ifs at h
  simp only [Except.ok.injEq] at h
  rw [ransacFinalize] at h
  split_ifs at h with hany
  · simp only [Prod.mk.injEq, Option.some.injEq] at h
    obtain ⟨hmo, hmu, hw⟩ := h
    obtain ⟨hch, hmask, hnil, hcons⟩ := stateOK_run inp data
    cases hh : (ransacRun inp data).history with
    | nil =>
      obtain ⟨_, _, hbi⟩ := hnil hh
      rw [hbi] at hany
      simp at hany
    | cons rec rest =>
      obtain ⟨_, _, hbi⟩ := hcons rec rest hh
      have hm := hmask rec (by rw [hh]; exact List.mem_cons_self _ _)
      refine ⟨rec, rest, rfl, ?_, ?_, ?_, ?_⟩
      · rw [← hmu, hbi]
      · rw [← hmu, hbi, hm]
      · rw [← hmo, ← hmu]
      · intro hlen
        rw [← hmu, hbi, hm]
        simp [inlierMask, absList, hlen]
  · simp at h


/-- Counterexample to claim C2 as stated: in a concrete run the returned
model is the re-estimation `1/4` over the winning inliers, and the third
sample has absolute residual `19/20 < 1` under that returned model, yet
its returned mask entry is `false` — the mask was computed under the best
trial model `0`, not under the returned model. -/
theorem ransac_mask_not_from_final_model :
    ransac inpA dataA =
      .ok (some (some (1 / 4)), some [true, true, false], []) ∧
    |(fnsA.residuals (1 / 4) dataA).getD 2 0| < inpA.residualThreshold ∧
    ([true, true, false].getD 2 false) = false := by
  refine ⟨ransacA_eval, ?_, rfl⟩
  norm_num [fnsA, dataA, inpA, abs_lt]

/-- Witness for the amended claim C2 at a concrete run. -/
theorem ransac_mask_from_best_trial_model_witness :
    ∃ rec rest, (ransacRun inpA dataA).history = rec :: rest ∧
      [true, true, false] = rec.inliers ∧
      [true, true, false] =
        inlierMask (absList (inpA.fns.residuals rec.model dataA))
          inpA.residualThreshold ∧
      (some (some (1 / 4)) : Option (Option ℚ)) =
        some (inpA.fns.fromEstimate
          (maskGather dataA [true, true, false])) ∧
      ((inpA.fns.residuals rec.model dataA).length = dataA.length →
        ([true, true, false] : List Bool).length = dataA.length) :=
  ransac_mask_from_best_trial_model inpA dataA (some (some (1 / 4)))
    [true, true, false] [] ransacA_eval

/-- Claim C9: when the final re-estimation over the winning inlier set
fails, `ransac` still returns the falsy Failed-Estimation value in the
model position together with the non-None winning inlier mask, raises no
exception, and emits no warning unless a supplied `is_model_valid`
predicate rejects the result. -/
theorem ransac_failed_reestimation_returned {α M : Type}
    (inp : RansacInput α M) (data : List α)
    (hms : 0 < inp.minSamples ∧ inp.minSamples ≤ (data.length : ℤ))
    (hrt : ¬inp.residualThreshold < 0) (hmt : ¬inp.maxTrials < 0)
    (hsp : 0 ≤ inp.stopProbability ∧ inp.stopProbability ≤ 1)
    (hii : ∀ ii, inp.initialInliers = some ii → ii.length = data.length)
    (hany : (ransacRun inp data).bestInliers.any id = true)
    (hfail : inp.fns.fromEstimate
      (maskGather data (ransacRun inp data).bestInliers) = none) :
    ransac inp data = .ok (some none,
      some (ransacRun inp data).bestInliers,
      match inp.isModelValid with
      | some f =>
        if f none (maskGather data (ransacRun inp data).bestInliers)
        then [] else [invalidModelWarning]
      | none => []) := by
  have h5' : ¬ ((match inp.initialInliers with
      | some ii => decide (ii.length ≠ data.length)
      | none => false) = true) := by
    rw [initialInliers_check_iff]
    rintro ⟨ii, hio, hlen⟩
    exact hlen (hii ii hio)
  simp only [ransac]
  split_ifs
  simp only [ransacFinalize]
  rw [if_pos hany, hfail]


/-- Witness for claim C9 at a concrete run whose final re-estimation over
the winning inliers fails. -/
theorem ransac_failed_reestimation_returned_witness :
    ransac inpC dataC = .ok (some none,
      some (ransacRun inpC dataC).bestInliers,
      match inpC.isModelValid with
      | some f =>
        if f none (maskGather dataC (ransacRun inpC dataC).bestInliers)
        then [] else [invalidModelWarning]
      | none => []) :=
  ransac_failed_reestimation_returned inpC dataC
    (by norm_num [inpC, dataC]) (by norm_num [inpC]) (by norm_num [inpC])
    (by norm_num [inpC]) (fun ii hio => by simp [inpC] at hio)
    (by rw [runC]; rfl)
    (by rw [runC]; simp [inpC, fnsC, dataC, maskGather])

end SkimageFit
